import Mathlib

/-!
Shallow embedding of the doc-parser repository's core components:

* `FeedbackCache`, `get_feedback_boost`, `invalidate_feedback_cache` and the
  search-result re-ranking of `src/services/search_service.py`;
* the page chunker of `src/services/markdown_chunker.py` (its regex
  `PAGE_PATTERN` is embedded as a deterministic scanner, which is faithful
  because every quantifier in the pattern is followed by a character the
  quantified class excludes, so the regex engine never backtracks);
* the PDF page limiter of `src/utils/pdf_utils.py`;
* the retry wrappers of `src/services/pdf_parser.py` and
  `src/services/summarizer.py`;
* the processing pipeline of `src/services/document_processor.py` and the
  status persistence of `src/api/documents.py` / `src/api/feedback.py`.

Machine floats are modeled by `ℚ`, Python `str` by `String` / `List Char`,
external services (LandingAI parse, Anthropic summarize, Elasticsearch bulk
index, Postgres) by explicit oracles / explicit state.
-/

namespace DocParser


/-! ### ASCII character helpers (model of Python's `str.strip`, `str.lower`,
regex `\s`, `\d`, and `re.IGNORECASE` on the ASCII inputs the code handles) -/

/-- ASCII lower-casing of a character, as the `re.IGNORECASE` flag and
`str.lower()` act on ASCII text. -/
def lowerChar (c : Char) : Char :=
  if 65 ≤ c.toNat ∧ c.toNat ≤ 90 then Char.ofNat (c.toNat + 32) else c

/-- The whitespace characters recognized by Python's `str.strip()` and the
regex class `\s` on ASCII text. -/
def isPySpace (c : Char) : Bool :=
  c == ' ' || c == '\t' || c == '\n' || c == '\r' || c == '\x0b' || c == '\x0c'

/-- Python's `str.strip()`: remove leading and trailing whitespace. -/
def pyStrip (s : List Char) : List Char :=
  ((s.dropWhile isPySpace).reverse.dropWhile isPySpace).reverse

/-- Decimal digit character, as produced by Python's `str(int)`. -/
def decDigitChar (d : ℕ) : Char := Char.ofNat (48 + d)

/-- Fueled decimal rendering of a natural number (digits most significant
first); `fuel = n + 1` always suffices. -/
def natStrAux : ℕ → ℕ → List Char
  | 0, _ => []
  | fuel + 1, n =>
    if n < 10 then [decDigitChar n]
    else natStrAux fuel (n / 10) ++ [decDigitChar (n % 10)]

/-- Decimal rendering of a natural number: the model of Python's `str(page)`
inside the f-string `f"{document_id}:{page}"`. -/
def natStr (n : ℕ) : List Char := natStrAux (n + 1) n

/-- Decimal value of a digit string (left fold), used to show `natStr` is
injective. -/
def digitsVal (s : List Char) : ℕ :=
  s.foldl (fun acc c => acc * 10 + (c.toNat - 48)) 0

/-! ### FeedbackCache (`search_service.py`, lines 17-74)

The cache is a Python dict keyed by the string `f"{document_id}:{page}"`,
holding `(boost_score, expiry_time)` pairs.  The dict is modeled as an
association list, `time()` as an explicit `now : ℚ` argument. -/

/-- The cache key `f"{document_id}:{page}"`. -/
def cacheKey (document_id : String) (page : ℕ) : List Char :=
  document_id.data ++ ':' :: natStr page

/-- A cache value: `(boost_score, expiry_time)`. -/
abbrev CacheVal := ℚ × ℚ

/-- Remove all entries with the given key from an association list (model of
Python's `del cache[key]`). -/
def eraseKey : List (List Char × CacheVal) → List Char → List (List Char × CacheVal)
  | [], _ => []
  | e :: m, k => if e.1 = k then eraseKey m k else e :: eraseKey m k

/-- In-memory TTL cache for feedback boost scores
(`FeedbackCache.__init__`). -/
structure FeedbackCache where
  cache : List (List Char × ℚ × ℚ)
  ttl_seconds : ℚ
deriving DecidableEq

/-- `FeedbackCache.get`: return the cached boost if present and unexpired;
an expired entry is deleted.  Returns the value and the updated cache. -/
def FeedbackCache.get (fc : FeedbackCache) (now : ℚ) (document_id : String)
    (page : ℕ) : Option ℚ × FeedbackCache :=
  let key := cacheKey document_id page
  match fc.cache.lookup key with
  | some (boost_score, expiry_time) =>
    if now < expiry_time then (some boost_score, fc)
    else (none, { fc with cache := eraseKey fc.cache key })
  | none => (none, fc)

/-- `FeedbackCache.set`: store a boost with expiry `now + ttl_seconds`. -/
def FeedbackCache.set (fc : FeedbackCache) (now : ℚ) (document_id : String)
    (page : ℕ) (boost_score : ℚ) : FeedbackCache :=
  let key := cacheKey document_id page
  { fc with cache := (key, boost_score, now + fc.ttl_seconds) :: eraseKey fc.cache key }

/-- `FeedbackCache.invalidate`: remove the entry for a document page. -/
def FeedbackCache.invalidate (fc : FeedbackCache) (document_id : String)
    (page : ℕ) : FeedbackCache :=
  { fc with cache := eraseKey fc.cache (cacheKey document_id page) }

/-! ### Feedback store and boost computation
(`models/feedback.py`, `db/postgres.py` `get_feedback_stats`,
`search_service.py` `get_feedback_boost`, lines 271-320) -/

/-- A stored feedback record (append-only table `feedback`). -/
structure FeedbackRecord where
  id : String
  query : String
  document_id : String
  page : ℕ
  positive : Bool
  session_id : Option String
deriving DecidableEq

/-- `get_feedback_stats`: positive and negative counts for a
(document, page). -/
def feedbackStats (store : List FeedbackRecord) (document_id : String)
    (page : ℕ) : ℕ × ℕ :=
  ((store.filter fun r =>
      r.document_id == document_id && r.page == page && r.positive).length,
   (store.filter fun r =>
      r.document_id == document_id && r.page == page && !r.positive).length)

/-- The boost formula of `get_feedback_boost`:
`boost = 1.0 + net_votes * 0.1` clamped by `max(0.1, min(3.0, boost))`. -/
def clampedBoost (positive_count negative_count : ℕ) : ℚ :=
  max 0.1 (min 3 (1 + ((positive_count : ℚ) - (negative_count : ℚ)) * 0.1))

/-- The mutable state of `SearchService` relevant to feedback boosting:
its in-process cache and the external feedback store it queries. -/
structure SearchServiceState where
  feedback_cache : FeedbackCache
  store : List FeedbackRecord
deriving DecidableEq

/-- `SearchService.get_feedback_boost`: consult the cache; on a miss, compute
the clamped boost from the feedback store and cache it.  Returns the boost
and the updated service state. -/
def get_feedback_boost (st : SearchServiceState) (now : ℚ) (document_id : String)
    (page : ℕ) : ℚ × SearchServiceState :=
  match st.feedback_cache.get now document_id page with
  | (some cached_boost, fc1) => (cached_boost, { st with feedback_cache := fc1 })
  | (none, fc1) =>
    let stats := feedbackStats st.store document_id page
    let boost := clampedBoost stats.1 stats.2
    (boost, { st with feedback_cache := fc1.set now document_id page boost })

/-- `SearchService.invalidate_feedback_cache`. -/
def invalidate_feedback_cache (st : SearchServiceState) (document_id : String)
    (page : ℕ) : SearchServiceState :=
  { st with feedback_cache := st.feedback_cache.invalidate document_id page }

/-- `api/feedback.py` `submit_feedback`, success path: append the new
feedback record, then synchronously invalidate the boost-cache entry for
that (document, page). -/
def submit_feedback (st : SearchServiceState) (query : String)
    (document_id : String) (page : ℕ) (positive : Bool) (feedback_id : String)
    (session_id : Option String) : SearchServiceState :=
  let st1 := { st with
    store := st.store ++ [⟨feedback_id, query, document_id, page, positive, session_id⟩] }
  invalidate_feedback_cache st1 document_id page

/-! ### Search result re-ranking (`search_service.py` `_parse_response`,
lines 322-411) -/

/-- The fields of an Elasticsearch hit that `_parse_response` reads. -/
structure EsHit where
  document_id : String
  filename : String
  page : ℕ
  base_score : ℚ
  summary : Option String
deriving DecidableEq

/-- The fields of a `SearchResult` involved in ranking. -/
structure SearchResultR where
  document_id : String
  filename : String
  page : ℕ
  score : ℚ
  summary : Option String
deriving DecidableEq

/-- The per-hit loop of `_parse_response`: multiply each hit's base
relevance score by the feedback boost for its (document, page), threading
the service state (each lookup may populate the cache). -/
def applyBoosts (st : SearchServiceState) (now : ℚ) :
    List EsHit → List SearchResultR × SearchServiceState
  | [] => ([], st)
  | hit :: hits =>
    let (feedback_boost, st') := get_feedback_boost st now hit.document_id hit.page
    let r : SearchResultR :=
      { document_id := hit.document_id, filename := hit.filename,
        page := hit.page, score := hit.base_score * feedback_boost,
        summary := hit.summary }
    let (rs, st'') := applyBoosts st' now hits
    (r :: rs, st'')

/-- Comparator of `results.sort(key=lambda r: r.score, reverse=True)`:
descending by score. -/
def scoreDescLe (a b : SearchResultR) : Bool := decide (b.score ≤ a.score)

/-- `_parse_response`: build the boosted results then re-sort them by
boosted score, descending (a stable sort, like Python's `list.sort`). -/
def parse_response (st : SearchServiceState) (now : ℚ) (hits : List EsHit) :
    List SearchResultR × SearchServiceState :=
  let (results, st') := applyBoosts st now hits
  (results.mergeSort scoreDescLe, st')

/-- The store-derived boosted result for a hit (what `_parse_response`
produces when the cache holds no stale data). -/
def boostedResult (store : List FeedbackRecord) (hit : EsHit) : SearchResultR :=
  { document_id := hit.document_id, filename := hit.filename, page := hit.page,
    score := hit.base_score *
      clampedBoost (feedbackStats store hit.document_id hit.page).1
        (feedbackStats store hit.document_id hit.page).2,
    summary := hit.summary }

/-- A service state is cache-consistent at time `now` when every unexpired
cache entry equals the boost derived from the current feedback store. -/
def cacheConsistent (st : SearchServiceState) (now : ℚ) : Prop :=
  ∀ d p b e, st.feedback_cache.cache.lookup (cacheKey d p) = some (b, e) →
    now < e →
    b = clampedBoost (feedbackStats st.store d p).1 (feedbackStats st.store d p).2

/-! ### MarkdownChunker (`markdown_chunker.py`)

`PAGE_PATTERN = re.compile(r'<tr><td[^>]*>Page:</td><td[^>]*>(\d+)\s+of\s+(\d+)</td></tr>', re.IGNORECASE)`

Every quantified class in the pattern (`[^>]*`, `\d+`, `\s+`) is followed by
a character it excludes, so the regex matches deterministically without
backtracking; the scanner below is therefore an exact model of
`PAGE_PATTERN.finditer` on ASCII input.  Each matching primitive returns the
number of characters consumed together with the remaining input. -/

/-- Case-insensitive literal matcher (the literal parts of `PAGE_PATTERN`
under `re.IGNORECASE`). -/
def litCI : List Char → List Char → Option (ℕ × List Char)
  | [], s => some (0, s)
  | _ :: _, [] => none
  | c :: l, x :: s =>
    if lowerChar x = lowerChar c then
      match litCI l s with
      | some (k, r) => some (k + 1, r)
      | none => none
    else none

/-- `[^>]*`: greedily consume characters other than `>`. -/
def takeNonGt : List Char → ℕ × List Char
  | [] => (0, [])
  | c :: s =>
    if c = '>' then (0, c :: s)
    else
      match takeNonGt s with
      | (k, r) => (k + 1, r)

/-- `\d+`: one or more decimal digits with their numeric value. -/
def digitsP : List Char → Option (ℕ × ℕ × List Char)
  | [] => none
  | c :: s =>
    if c.isDigit then
      match digitsPAux s (c.toNat - 48) 1 with
      | (k, v, r) => some (k, v, r)
    else none
where
  /-- Greedy continuation: accumulate further digits. -/
  digitsPAux : List Char → ℕ → ℕ → ℕ × ℕ × List Char
    | [], v, k => (k, v, [])
    | c :: s, v, k =>
      if c.isDigit then digitsPAux s (v * 10 + (c.toNat - 48)) (k + 1)
      else (k, v, c :: s)

/-- `\s+`: one or more whitespace characters. -/
def spacesP : List Char → Option (ℕ × List Char)
  | [] => none
  | c :: s =>
    if isPySpace c then
      match spacesPAux s 1 with
      | (k, r) => some (k, r)
    else none
where
  /-- Greedy continuation: accumulate further whitespace. -/
  spacesPAux : List Char → ℕ → ℕ × List Char
    | [], k => (k, [])
    | c :: s, k => if isPySpace c then spacesPAux s (k + 1) else (k, c :: s)

/-- A match of `PAGE_PATTERN` at the head of the input: returns the match
length, the page number (group 1), the declared total (group 2) and the
remaining input. -/
def markerMatch (s : List Char) : Option (ℕ × ℕ × ℕ × List Char) := do
  let (k1, s1) ← litCI "<tr><td".data s
  let (k2, s2) := takeNonGt s1
  let (k3, s3) ← litCI ">Page:</td><td".data s2
  let (k4, s4) := takeNonGt s3
  let (k5, s5) ← litCI ">".data s4
  let (k6, n, s6) ← digitsP s5
  let (k7, s7) ← spacesP s6
  let (k8, s8) ← litCI "of".data s7
  let (k9, s9) ← spacesP s8
  let (k10, t, s10) ← digitsP s9
  let (k11, s11) ← litCI "</td></tr>".data s10
  pure (k1 + k2 + k3 + k4 + k5 + k6 + k7 + k8 + k9 + k10 + k11, n, t, s11)

/-- One marker occurrence, as `re.Match` data used by `chunk_by_page`:
`start = match.start()`, `stop = match.end()`, `page = int(group(1))`,
`total = int(group(2))`. -/
structure PageMarker where
  start : ℕ
  stop : ℕ
  page : ℕ
  total : ℕ
deriving DecidableEq

/-- Fueled left-to-right scan for non-overlapping `PAGE_PATTERN` matches
(`PAGE_PATTERN.finditer`); fuel `≥ length + 1` never runs out. -/
def findFromFuel : ℕ → List Char → ℕ → List PageMarker
  | 0, _, _ => []
  | _ + 1, [], _ => []
  | fuel + 1, c :: rest, pos =>
    match markerMatch (c :: rest) with
    | some (len, p, t, rem) =>
      ⟨pos, pos + len, p, t⟩ :: findFromFuel fuel rem (pos + len)
    | none => findFromFuel fuel rest (pos + 1)

/-- `list(PAGE_PATTERN.finditer(markdown_content))`. -/
def findMarkers (s : List Char) : List PageMarker :=
  findFromFuel (s.length + 1) s 0

/-- A page chunk `{"page": …, "content": …, "total_pages": …}`. -/
structure PageChunk where
  page : ℕ
  content : List Char
  total_pages : ℕ
deriving DecidableEq

/-- `s[a:b]` for `a ≤ b`: Python slice. -/
def listSlice (s : List Char) (a b : ℕ) : List Char := (s.drop a).take (b - a)

/-- The chunk-building loop of `chunk_by_page`: each chunk's content runs
from just after its marker to just before the next marker (or the end of
the text); chunks whose stripped content is empty are skipped. -/
def buildChunks (s : List Char) (total_pages : ℕ) : List PageMarker → List PageChunk
  | [] => []
  | m :: ms =>
    let end_pos := match ms with
      | [] => s.length
      | m' :: _ => m'.start
    let page_content := pyStrip (listSlice s m.stop end_pos)
    let rest := buildChunks s total_pages ms
    if page_content = [] then rest
    else ⟨m.page, page_content, total_pages⟩ :: rest

/-- `MarkdownChunker.chunk_by_page`: no markers ⇒ one chunk holding the whole
stripped text as page 1 of 1; otherwise `total_pages` is read from the first
marker and the chunks are built marker by marker. -/
def chunk_by_page (markdown_content : List Char) : List PageChunk :=
  match findMarkers markdown_content with
  | [] => [⟨1, pyStrip markdown_content, 1⟩]
  | m :: ms => buildChunks markdown_content m.total (m :: ms)

/-- The HTML table-row page marker actually emitted by the external parser
(LandingAI), for single-digit page and total: the concrete instance of
`PAGE_PATTERN`'s language used in the testable properties. -/
def pageMarker (pageDigit totalDigit : Char) : List Char :=
  "<tr><td>Page:</td><td>".data ++
    pageDigit :: ' ' :: 'o' :: 'f' :: ' ' :: totalDigit :: "</td></tr>".data

/-! ### PDF page limiter (`utils/pdf_utils.py`)

A filesystem path is modeled by its `pathlib.Path` components
(`parent`, `stem`, `suffix`); a PDF file by its path and its abstract page
list.  `PdfReader`/`PdfWriter` are modeled by reading/constructing that
page list. -/

/-- `LANDINGAI_MAX_PAGES = 50`. -/
def LANDINGAI_MAX_PAGES : ℕ := 50

/-- A `pathlib.Path` as decomposed by `pdf_utils`: `parent`, `stem`,
`suffix`. -/
structure PyPath where
  parent : String
  stem : String
  suffix : String
deriving DecidableEq

/-- A PDF artifact: its path and its pages (pages abstracted as opaque
identifiers). -/
structure PdfFile where
  path : PyPath
  pages : List ℕ
deriving DecidableEq

/-- `get_pdf_page_count`. -/
def get_pdf_page_count (f : PdfFile) : ℕ := f.pages.length

/-- `limit_pdf_to_max_pages`: returns
`(path_to_use, original_page_count, was_truncated)` together with the
truncated artifact it wrote, if any.  Within the limit the original path is
returned unchanged; otherwise a new PDF holding the first
`min max_pages original_page_count` pages is written next to the original
under the stem suffixed `_limited`. -/
def limit_pdf_to_max_pages (f : PdfFile)
    (max_pages : ℕ := LANDINGAI_MAX_PAGES) :
    (PyPath × ℕ × Bool) × Option PdfFile :=
  let original_page_count := get_pdf_page_count f
  if original_page_count ≤ max_pages then
    ((f.path, original_page_count, false), none)
  else
    let limited_path : PyPath :=
      { parent := f.path.parent, stem := f.path.stem ++ "_limited",
        suffix := f.path.suffix }
    let limited : PdfFile :=
      { path := limited_path,
        pages := f.pages.take (min max_pages original_page_count) }
    ((limited_path, original_page_count, true), some limited)

/-! ### Retry wrappers (`pdf_parser.py`, `summarizer.py`)

The external services are oracles indexed by the (1-based) attempt number.
`retryRun` is the common loop shape
`for attempt in range(1, max_retries + 1): try … except …` of
`parse_pdf_with_retry` and `summarize_text_with_retry`, parameterized by the
per-attempt call and the sleep expression; it returns the final outcome and
the list of sleeps performed (in seconds). -/

/-- The retry loop: on failure of a non-final attempt, sleep `wait attempt`
and retry; the final attempt's failure is re-raised unchanged.  `fuel` is
the number of remaining loop iterations (`max_retries` at the start); the
fuel-exhausted base case is the dead `raise last_error` after the loop. -/
def retryRun {α : Type} (call : ℕ → Except String α) (wait : ℕ → ℕ)
    (max_retries : ℕ) : ℕ → ℕ → String → Except String α × List ℕ
  | 0, _, last_error => (.error last_error, [])
  | fuel + 1, attempt, _ =>
    match call attempt with
    | .ok a => (.ok a, [])
    | .error e =>
      if attempt = max_retries then (.error e, [])
      else
        let (r, ws) := retryRun call wait max_retries fuel (attempt + 1) e
        (r, wait attempt :: ws)

/-- The filesystem facts about the uploaded file that `parse_pdf`
validates, plus its printable path. -/
structure PdfFileInfo where
  name : String
  fileExists : Bool
  isFile : Bool
  suffix : List Char
deriving DecidableEq

/-- The validation prefix of `PDFParser.parse_pdf`: the first failing check,
if any (file missing, not a file, or extension not `.pdf` after
lower-casing). -/
def parsePdfValidation (f : PdfFileInfo) : Option String :=
  if !f.fileExists then some ("PDF file not found: " ++ f.name)
  else if !f.isFile then some ("Path is not a file: " ++ f.name)
  else if f.suffix.map lowerChar ≠ ".pdf".data then
    some ("File is not a PDF: " ++ f.name)
  else none

/-- `PDFParser.parse_pdf`: validate, then call the external parser (`ext` is
that call's result) and reject an empty markdown response. -/
def parse_pdf (f : PdfFileInfo) (ext : Except String String) :
    Except String String :=
  match parsePdfValidation f with
  | some msg => .error msg
  | none =>
    match ext with
    | .ok markdown_content =>
      if markdown_content = "" then
        .error ("No markdown content returned from LandingAI for " ++ f.name)
      else .ok markdown_content
    | .error e => .error e

/-- `PDFParser.parse_pdf_with_retry`: retry `parse_pdf` up to `max_retries`
times, sleeping `2 * attempt` seconds after each non-final failure. -/
def parse_pdf_with_retry (f : PdfFileInfo) (oracle : ℕ → Except String String)
    (max_retries : ℕ := 3) : Except String String × List ℕ :=
  retryRun (fun attempt => parse_pdf f (oracle attempt))
    (fun attempt => 2 * attempt) max_retries max_retries 1 ""

/-- `Summarizer.summarize_text`: reject content whose stripped length is
under 50 characters, otherwise call the external summarizer (`ext` is that
call's result). -/
def summarize_text (content : List Char) (ext : Except String String) :
    Except String String :=
  if (pyStrip content).length < 50 then
    .error "Content is too short to summarize"
  else ext

/-- `Summarizer.summarize_text_with_retry`: retry `summarize_text` up to
`max_retries` times, sleeping `2 ^ attempt` seconds after each non-final
failure. -/
def summarize_text_with_retry (content : List Char)
    (oracle : ℕ → Except String String) (max_retries : ℕ := 3) :
    Except String String × List ℕ :=
  retryRun (fun attempt => summarize_text content (oracle attempt))
    (fun attempt => 2 ^ attempt) max_retries max_retries 1 ""

/-! ### Document processing pipeline (`document_processor.py`,
`api/documents.py`)

`process_document` is modeled as a function of the external-service
oracles: the parse oracle (per parse attempt), the summarize oracle (per
chunk, per attempt) and the bulk-index oracle (success count and error
list).  The model records, besides the `result` dict, the observables the
claims speak about: whether an exception propagated, the documents
submitted for indexing, and how many chunk-level summarizer invocations
were made. -/

/-- `ProcessingStatus` (`models/document.py`). -/
inductive ProcessingStatus
  | uploaded | parsing | summarizing | indexing | ready | failed
deriving DecidableEq

/-- The fields of an indexed page document that the claims reference
(category, machine model, part numbers and timestamps are carried along
unchanged and are omitted here). -/
structure IndexedDoc where
  document_id : String
  filename : String
  page : ℕ
  content : List Char
  summary : Option String
deriving DecidableEq

/-- The `result` dict built by `process_document`. -/
structure ProcessResult where
  document_id : String
  status : ProcessingStatus
  total_pages : ℕ
  pages_indexed : ℕ
  summaries_generated : ℕ
  error_message : Option String
deriving DecidableEq

/-- A full run of `process_document`: the returned/raised outcome and the
externally observable effects. -/
structure ProcessOutcome where
  result : ProcessResult
  raised : Option String
  indexed_docs : List IndexedDoc
  summarizer_calls : ℕ
deriving DecidableEq

/-- Stage 3 of `process_document`: summarize each chunk in order through
`summarize_text_with_retry`; a page's failure is non-fatal and yields an
empty summary; `summaries_generated` counts successes.  Returns the
summaries and that count. -/
def summarizeChunks (σ : ℕ → ℕ → Except String String) :
    List PageChunk → ℕ → List String × ℕ
  | [], _ => ([], 0)
  | chunk :: rest, idx =>
    let this_summary := match (summarize_text_with_retry chunk.content (σ idx) 3).1 with
      | .ok summary => (summary, 1)
      | .error _ => ("", 0)
    let (restS, restN) := summarizeChunks σ rest (idx + 1)
    (this_summary.1 :: restS, this_summary.2 + restN)

/-- Stage 4 document construction: one index document per chunk, with an
empty summary stored as absent (`summaries[i] if summaries[i] else None`). -/
def buildDocs (document_id : String) (filename : String) :
    List PageChunk → List String → List IndexedDoc
  | [], _ => []
  | _, [] => []
  | chunk :: cs, s :: ss =>
    { document_id := document_id, filename := filename, page := chunk.page,
      content := chunk.content,
      summary := if s = "" then none else some s } :: buildDocs document_id filename cs ss

/-- `DocumentProcessor.process_document`.  Stage 1 parses through
`parse_pdf_with_retry` (its failure is caught by the outer handler, which
marks the result FAILED and re-raises); stage 2 chunks; stage 3 summarizes
(per-page failures non-fatal); stage 4 bulk-indexes all pages. -/
def process_document (f : PdfFileInfo) (document_id : String)
    (parseOracle : ℕ → Except String String)
    (σ : ℕ → ℕ → Except String String)
    (bulk : List IndexedDoc → ℕ × List String)
    (generate_summaries : Bool := true) : ProcessOutcome :=
  match (parse_pdf_with_retry f parseOracle 3).1 with
  | .error e =>
    { result := { document_id := document_id, status := .failed, total_pages := 0,
                  pages_indexed := 0, summaries_generated := 0,
                  error_message := some e },
      raised := some e, indexed_docs := [], summarizer_calls := 0 }
  | .ok markdown_content =>
    let page_chunks := chunk_by_page markdown_content.data
    let sums := if generate_summaries then summarizeChunks σ page_chunks 0
                else (page_chunks.map (fun _ => ""), 0)
    let documents := buildDocs document_id f.name page_chunks sums.1
    let bulkRes := bulk documents
    { result := { document_id := document_id, status := .ready,
                  total_pages := page_chunks.length,
                  pages_indexed := bulkRes.1, summaries_generated := sums.2,
                  error_message := none },
      raised := none, indexed_docs := documents,
      summarizer_calls := if generate_summaries then page_chunks.length else 0 }

/-- The document row as updated by `process_document_task`
(`api/documents.py`): `total_pages` is only ever written in the READY
branch, so a failed run leaves it unset. -/
structure DocumentRow where
  status : ProcessingStatus
  total_pages : Option ℕ
  error_message : Option String
deriving DecidableEq

/-- The final status write of `process_document_task`: READY with the page
count on success (no truncation notice in the untruncated case), FAILED
with the exception's message on failure. -/
def taskFinalRow (out : ProcessOutcome) : DocumentRow :=
  match out.raised with
  | some e => { status := .failed, total_pages := none, error_message := some e }
  | none => { status := .ready, total_pages := some out.result.total_pages,
              error_message := none }

/-- A concrete five-page parser output (five HTML page markers, each
followed by 55 characters of content), used to witness the C6 theorem. -/
def c6md : String :=
  ⟨pageMarker '1' '5' ++ (List.replicate 55 'a' ++ (pageMarker '2' '5' ++
    (List.replicate 55 'b' ++ (pageMarker '3' '5' ++ (List.replicate 55 'c' ++
      (pageMarker '4' '5' ++ (List.replicate 55 'd' ++ (pageMarker '5' '5' ++
        List.replicate 55 'e'))))))))⟩

/-! ### Supporting lemmas -/

theorem decDigitChar_ne_colon {d : ℕ} (h : d < 10) : decDigitChar d ≠ ':' := by
  interval_cases d <;> decide

theorem natStrAux_chars_ne_colon :
    ∀ fuel n, ∀ c ∈ natStrAux fuel n, c ≠ ':' := by
  intro fuel
  induction fuel with
  | zero => intro n c hc; simp [natStrAux] at hc
  | succ f ih =>
    intro n c hc
    by_cases hn : n < 10
    · simp [natStrAux, hn] at hc
      subst hc; exact decDigitChar_ne_colon hn
    · simp [natStrAux, hn] at hc
      rcases hc with hc | hc
      · exact ih _ _ hc
      · subst hc; exact decDigitChar_ne_colon (Nat.mod_lt _ (by norm_num))

theorem natStr_chars_ne_colon (n : ℕ) : ∀ c ∈ natStr n, c ≠ ':' :=
  natStrAux_chars_ne_colon (n + 1) n

theorem digitsVal_append_singleton (s : List Char) (c : Char) :
    digitsVal (s ++ [c]) = digitsVal s * 10 + (c.toNat - 48) := by
  simp [digitsVal, List.foldl_append]

theorem digitsVal_decDigitChar {d : ℕ} (h : d < 10) :
    (decDigitChar d).toNat - 48 = d := by
  interval_cases d <;> decide

theorem digitsVal_natStrAux :
    ∀ fuel n, n < fuel → digitsVal (natStrAux fuel n) = n := by
  intro fuel
  induction fuel with
  | zero => intro n h; omega
  | succ f ih =>
    intro n h
    by_cases hn : n < 10
    · simp [natStrAux, hn, digitsVal]
      exact digitsVal_decDigitChar hn
    · have hlt : n / 10 < f := by
        have := Nat.div_lt_self (by omega : 0 < n) (by norm_num : 1 < 10)
        omega
      simp only [natStrAux, hn, if_false]
      rw [digitsVal_append_singleton, ih _ hlt,
        digitsVal_decDigitChar (Nat.mod_lt _ (by norm_num))]
      omega

theorem digitsVal_natStr (n : ℕ) : digitsVal (natStr n) = n :=
  digitsVal_natStrAux (n + 1) n (Nat.lt_succ_self n)

theorem natStr_injective : Function.Injective natStr := by
  intro a b h
  have := digitsVal_natStr a
  rw [h, digitsVal_natStr] at this
  omega

/-- Splitting a list at a colon is unambiguous when the right parts are
colon-free (first-occurrence version: left parts colon-free). -/
theorem colon_split_left :
    ∀ (a c : List Char) (b d : List Char),
      (∀ x ∈ a, x ≠ ':') → (∀ x ∈ c, x ≠ ':') →
      a ++ ':' :: b = c ++ ':' :: d → a = c ∧ b = d := by
  intro a
  induction a with
  | nil =>
    intro c b d _ hc h
    cases c with
    | nil => simpa using h
    | cons x c' =>
      simp only [List.nil_append, List.cons_append, List.cons.injEq] at h
      exact absurd h.1.symm (hc x (by simp))
  | cons x a' ih =>
    intro c b d ha hc h
    cases c with
    | nil =>
      simp only [List.cons_append, List.nil_append, List.cons.injEq] at h
      exact absurd h.1 (ha x (by simp))
    | cons y c' =>
      simp only [List.cons_append, List.cons.injEq] at h
      obtain ⟨rfl, h2⟩ := h
      obtain ⟨h3, h4⟩ := ih c' b d (fun z hz => ha z (by simp [hz]))
        (fun z hz => hc z (by simp [hz])) h2
      exact ⟨by rw [h3], h4⟩

/-- Splitting a list at a colon is unambiguous when both right parts are
colon-free (last-occurrence version). -/
theorem colon_split_right (a c b d : List Char)
    (hb : ∀ x ∈ b, x ≠ ':') (hd : ∀ x ∈ d, x ≠ ':')
    (h : a ++ ':' :: b = c ++ ':' :: d) : a = c ∧ b = d := by
  have h' : b.reverse ++ ':' :: a.reverse = d.reverse ++ ':' :: c.reverse := by
    have := congrArg List.reverse h
    simpa [List.reverse_append] using this
  obtain ⟨h1, h2⟩ := colon_split_left b.reverse d.reverse a.reverse c.reverse
    (by intro x hx; exact hb x (List.mem_reverse.mp hx))
    (by intro x hx; exact hd x (List.mem_reverse.mp hx)) h'
  constructor
  · have := congrArg List.reverse h2; simpa using this
  · have := congrArg List.reverse h1; simpa using this

theorem cacheKey_injective (d d' : String) (p p' : ℕ)
    (h : cacheKey d p = cacheKey d' p') : d = d' ∧ p = p' := by
  obtain ⟨h1, h2⟩ := colon_split_right d.data d'.data (natStr p) (natStr p')
    (natStr_chars_ne_colon p) (natStr_chars_ne_colon p') h
  exact ⟨String.ext h1, natStr_injective h2⟩

theorem lookup_eraseKey_self (m : List (List Char × CacheVal))
    (k : List Char) : (eraseKey m k).lookup k = none := by
  induction m with
  | nil => rfl
  | cons e m ih =>
    obtain ⟨a, v⟩ := e
    by_cases h : a = k
    · simpa [eraseKey, h] using ih
    · have h2 : (k == a) = false := by simp [Ne.symm h]
      simpa [eraseKey, h, List.lookup, h2] using ih

theorem lookup_eraseKey_ne (m : List (List Char × CacheVal))
    (k k' : List Char) (h : k' ≠ k) :
    (eraseKey m k).lookup k' = m.lookup k' := by
  induction m with
  | nil => rfl
  | cons e m ih =>
    obtain ⟨a, v⟩ := e
    by_cases he : a = k
    · subst he
      have h2 : (k' == a) = false := by simp [h]
      simpa [eraseKey, List.lookup, h2] using ih
    · by_cases he' : k' = a
      · simp [eraseKey, he, List.lookup, he']
      · have h2 : (k' == a) = false := by simp [he']
        simpa [eraseKey, he, List.lookup, h2] using ih

theorem get_feedback_boost_store (st : SearchServiceState) (now : ℚ)
    (d : String) (p : ℕ) :
    (get_feedback_boost st now d p).2.store = st.store := by
  unfold get_feedback_boost
  rcases hg : st.feedback_cache.get now d p with ⟨o, fc1⟩
  cases o <;> simp

theorem get_feedback_boost_of_consistent (st : SearchServiceState) (now : ℚ)
    (d : String) (p : ℕ) (h : cacheConsistent st now) :
    (get_feedback_boost st now d p).1 =
      clampedBoost (feedbackStats st.store d p).1 (feedbackStats st.store d p).2
    ∧ cacheConsistent (get_feedback_boost st now d p).2 now := by
  unfold get_feedback_boost FeedbackCache.get
  rcases hl : st.feedback_cache.cache.lookup (cacheKey d p) with _ | ⟨b, e⟩
  · refine ⟨by simp [hl], ?_⟩
    simp only [hl]
    intro d' p' b' e' hl' hlt'
    simp only [FeedbackCache.set] at hl'
    by_cases hk : cacheKey d' p' = cacheKey d p
    · obtain ⟨rfl, rfl⟩ := cacheKey_injective _ _ _ _ hk
      rw [hk] at hl'
      simp [List.lookup] at hl'
      exact hl'.1.symm
    · rw [List.lookup, show (cacheKey d' p' == cacheKey d p) = false by simpa using hk,
        lookup_eraseKey_ne _ _ _ hk] at hl'
      exact h d' p' b' e' hl' hlt'
  · by_cases ht : now < e
    · simp only [hl, ht, if_true]
      exact ⟨h d p b e hl ht, h⟩
    · refine ⟨by simp [hl, ht], ?_⟩
      simp only [hl, ht, if_false]
      intro d' p' b' e' hl' hlt'
      simp only [FeedbackCache.set] at hl'
      by_cases hk : cacheKey d' p' = cacheKey d p
      · obtain ⟨rfl, rfl⟩ := cacheKey_injective _ _ _ _ hk
        rw [hk] at hl'
        simp [List.lookup] at hl'
        exact hl'.1.symm
      · rw [List.lookup, show (cacheKey d' p' == cacheKey d p) = false by simpa using hk,
          lookup_eraseKey_ne _ _ _ hk, lookup_eraseKey_ne _ _ _ hk] at hl'
        exact h d' p' b' e' hl' hlt'

theorem applyBoosts_of_consistent (now : ℚ) (hits : List EsHit) :
    ∀ st : SearchServiceState, cacheConsistent st now →
      (applyBoosts st now hits).1 = hits.map (boostedResult st.store) := by
  induction hits with
  | nil => intro st _; rfl
  | cons hit hits ih =>
    intro st h
    obtain ⟨hb, hc⟩ := get_feedback_boost_of_consistent st now hit.document_id hit.page h
    have hstore := get_feedback_boost_store st now hit.document_id hit.page
    simp only [applyBoosts, List.map_cons]
    rcases hg : get_feedback_boost st now hit.document_id hit.page with ⟨boost, st'⟩
    rw [hg] at hb hc hstore
    simp only at hb hc hstore
    have htail := ih st' hc
    rw [hstore] at htail
    simp [boostedResult, hb, htail]

theorem lowerChar_ne_lt {x : Char} (h : x ≠ '<') : lowerChar x ≠ '<' := by
  unfold lowerChar
  split
  · rename_i hcond
    obtain ⟨hl, hu⟩ := hcond
    intro hEq
    set m := x.toNat with hm
    interval_cases m <;> exact absurd hEq (by decide)
  · exact h

theorem markerMatch_cons_none {x : Char} (h : x ≠ '<') (rest : List Char) :
    markerMatch (x :: rest) = none := by
  have hx : ¬ (lowerChar x = lowerChar '<') := by
    have hlt : lowerChar '<' = '<' := by decide
    rw [hlt]; exact lowerChar_ne_lt h
  simp only [markerMatch]
  simp [litCI, hx]

theorem findFromFuel_nil (fuel pos : ℕ) : findFromFuel fuel [] pos = [] := by
  cases fuel <;> rfl

theorem findFromFuel_skip (cs : List Char) (h : ∀ x ∈ cs, x ≠ '<') :
    ∀ (f' : ℕ) (s' : List Char) (pos : ℕ),
      findFromFuel (cs.length + f') (cs ++ s') pos =
        findFromFuel f' s' (pos + cs.length) := by
  induction cs with
  | nil => intro f' s' pos; simp
  | cons x cs ih =>
    intro f' s' pos
    have e1 : (x :: cs).length + f' = (cs.length + f') + 1 := by
      simp [List.length_cons]; omega
    rw [e1]
    show findFromFuel ((cs.length + f') + 1) (x :: (cs ++ s')) pos = _
    rw [findFromFuel, markerMatch_cons_none (h x (by simp))]
    rw [ih (fun y hy => h y (by simp [hy])) f' s' (pos + 1)]
    have e2 : pos + 1 + cs.length = pos + (x :: cs).length := by
      simp [List.length_cons]; omega
    rw [e2]

theorem findFromFuel_skip_nil (cs : List Char) (h : ∀ x ∈ cs, x ≠ '<')
    (f' pos : ℕ) : findFromFuel (cs.length + f') cs pos = [] := by
  have hc := findFromFuel_skip cs h f' [] pos
  rw [List.append_nil] at hc
  rw [hc, findFromFuel_nil]

theorem findFromFuel_marker13 (fuel : ℕ) (rest : List Char) (pos : ℕ) :
    findFromFuel (fuel + 1) (pageMarker '1' '3' ++ rest) pos =
      ⟨pos, pos + 38, 1, 3⟩ :: findFromFuel fuel rest (pos + 38) := rfl

theorem findFromFuel_marker23 (fuel : ℕ) (rest : List Char) (pos : ℕ) :
    findFromFuel (fuel + 1) (pageMarker '2' '3' ++ rest) pos =
      ⟨pos, pos + 38, 2, 3⟩ :: findFromFuel fuel rest (pos + 38) := rfl

theorem findFromFuel_marker33 (fuel : ℕ) (rest : List Char) (pos : ℕ) :
    findFromFuel (fuel + 1) (pageMarker '3' '3' ++ rest) pos =
      ⟨pos, pos + 38, 3, 3⟩ :: findFromFuel fuel rest (pos + 38) := rfl

theorem listSlice_eq_mid (s u v w : List Char) (x y : ℕ)
    (hs : s = u ++ (v ++ w)) (hx : x = u.length) (hy : y = u.length + v.length) :
    listSlice s x y = v := by
  subst hs hx hy
  unfold listSlice
  rw [List.drop_left]
  simp [List.take_left]

theorem listSlice_eq_last (s u v : List Char) (x y : ℕ)
    (hs : s = u ++ v) (hx : x = u.length) (hy : y = s.length) :
    listSlice s x y = v := by
  subst hs hx hy
  unfold listSlice
  rw [List.drop_left]
  simp [List.length_append]

/-- Closed form of a run in which every attempt fails: the loop performs
all `max_retries` attempts, sleeps `wait 1, …, wait (max_retries - 1)`, and
re-raises the last attempt's error unchanged. -/
theorem retryRun_allFail {α : Type} (call : ℕ → Except String α)
    (wait : ℕ → ℕ) (max_retries : ℕ) (es : ℕ → String)
    (h : ∀ i, call i = .error (es i)) :
    ∀ (fuel attempt : ℕ) (le : String), 1 ≤ attempt → attempt ≤ max_retries →
      max_retries + 1 ≤ attempt + fuel →
      retryRun call wait max_retries fuel attempt le =
        (.error (es max_retries),
         (List.range' attempt (max_retries - attempt)).map wait) := by
  intro fuel
  induction fuel with
  | zero => intro attempt le _ h2 h3; omega
  | succ f ih =>
    intro attempt le h1 h2 h3
    rw [retryRun, h attempt]
    dsimp only
    by_cases he : attempt = max_retries
    · subst he
      simp [List.range']
    · have hlt : attempt < max_retries := lt_of_le_of_ne h2 he
      rw [if_neg he, ih (attempt + 1) (es attempt) (by omega) (by omega) (by omega)]
      have hr : max_retries - attempt = (max_retries - (attempt + 1)) + 1 := by omega
      rw [hr, List.range'_succ]
      simp

theorem retryRun_firstOk {α : Type} (call : ℕ → Except String α) (wait : ℕ → ℕ)
    (max_retries : ℕ) (a : α) (h : call 1 = .ok a) (fuel : ℕ) (le : String)
    (hf : fuel ≠ 0) : retryRun call wait max_retries fuel 1 le = (.ok a, []) := by
  cases fuel with
  | zero => exact absurd rfl hf
  | succ f => rw [retryRun, h]

/-! ### The claims -/

/-- C1: on a cache miss, `get_feedback_boost` returns
`clamp(1.0 + 0.1 * (positive_count - negative_count), 0.1, 3.0)` computed
from the feedback store; with no feedback it returns exactly 1.0, and the
computed boost always lies within [0.1, 3.0]. -/
theorem claim_C1_boost_formula (st : SearchServiceState) (now : ℚ)
    (d : String) (p : ℕ)
    (hmiss : (st.feedback_cache.get now d p).1 = none) :
    (get_feedback_boost st now d p).1
        = max 0.1 (min 3 (1 + (((feedbackStats st.store d p).1 : ℚ)
            - ((feedbackStats st.store d p).2 : ℚ)) * 0.1))
    ∧ (feedbackStats st.store d p = (0, 0) → (get_feedback_boost st now d p).1 = 1)
    ∧ 0.1 ≤ (get_feedback_boost st now d p).1
    ∧ (get_feedback_boost st now d p).1 ≤ 3 := by
  rcases hg : st.feedback_cache.get now d p with ⟨o, fc1⟩
  rw [hg] at hmiss
  subst hmiss
  have hval : (get_feedback_boost st now d p).1
      = clampedBoost (feedbackStats st.store d p).1 (feedbackStats st.store d p).2 := by
    unfold get_feedback_boost
    rw [hg]
  refine ⟨by rw [hval]; rfl, ?_, ?_, ?_⟩
  · intro h0
    rw [hval, h0]
    unfold clampedBoost
    norm_num
  · rw [hval]; exact le_max_left _ _
  · rw [hval]
    exact max_le (by norm_num) (min_le_left _ _)

theorem claim_C1_witness :
    (get_feedback_boost ⟨⟨[], 300⟩, []⟩ 0 "doc" 1).1 = 1 :=
  (claim_C1_boost_formula ⟨⟨[], 300⟩, []⟩ 0 "doc" 1 rfl).2.1 rfl

/-- C2 (counterexample): plain-text markers "Page: 1 of 3" … "Page: 3 of 3"
are NOT recognized by `PAGE_PATTERN` (which requires the HTML table-row
form `<tr><td…>Page:</td><td…>n of m</td></tr>`): on such a text
`chunk_by_page` finds no markers and returns a single chunk with
`total_pages = 1` instead of 3 chunks with `total_pages = 3`. -/
theorem claim_C2_counterexample :
    chunk_by_page "Page: 1 of 3 alpha Page: 2 of 3 beta Page: 3 of 3 gamma".data
      = [⟨1, pyStrip "Page: 1 of 3 alpha Page: 2 of 3 beta Page: 3 of 3 gamma".data, 1⟩]
    ∧ (chunk_by_page "Page: 1 of 3 alpha Page: 2 of 3 beta Page: 3 of 3 gamma".data).length
      ≠ 3 := by
  constructor
  · decide
  · decide

/-- C2 (amended): for every text consisting of the three page markers in
the HTML table-row form actually matched by `PAGE_PATTERN`
(`<tr><td>Page:</td><td>n of 3</td></tr>`, n = 1, 2, 3), each followed by
content that is non-empty after stripping and free of further markers (no
`<` characters), `chunk_by_page` returns exactly 3 chunks in ascending page
order, each with `total_pages = 3`, whose content is the stripped span from
just after its marker to just before the next marker (or the end of the
text). -/
theorem chunk_by_page_html_markers (c1 c2 c3 : List Char)
    (h1 : ∀ x ∈ c1, x ≠ '<') (h2 : ∀ x ∈ c2, x ≠ '<') (h3 : ∀ x ∈ c3, x ≠ '<')
    (n1 : pyStrip c1 ≠ []) (n2 : pyStrip c2 ≠ []) (n3 : pyStrip c3 ≠ []) :
    chunk_by_page (pageMarker '1' '3' ++ (c1 ++ (pageMarker '2' '3' ++ (c2 ++ (pageMarker '3' '3' ++ c3)))))
      = [⟨1, pyStrip c1, 3⟩, ⟨2, pyStrip c2, 3⟩, ⟨3, pyStrip c3, 3⟩] := by
  have lm1 : (pageMarker '1' '3').length = 38 := rfl
  have lm2 : (pageMarker '2' '3').length = 38 := rfl
  have lm3 : (pageMarker '3' '3').length = 38 := rfl
  have hm : findMarkers (pageMarker '1' '3' ++ (c1 ++ (pageMarker '2' '3' ++ (c2 ++ (pageMarker '3' '3' ++ c3)))))
      = [⟨0, 38, 1, 3⟩, ⟨38 + c1.length, 76 + c1.length, 2, 3⟩,
         ⟨76 + c1.length + c2.length, 114 + c1.length + c2.length, 3, 3⟩] := by
    unfold findMarkers
    have hlen : (pageMarker '1' '3' ++ (c1 ++ (pageMarker '2' '3' ++ (c2 ++ (pageMarker '3' '3' ++ c3))))).length
        = 114 + c1.length + c2.length + c3.length := by
      simp [List.length_append, lm1, lm2, lm3]; omega
    rw [hlen]
    rw [findFromFuel_marker13]
    have e2 : 114 + c1.length + c2.length + c3.length = c1.length + (114 + c2.length + c3.length) := by omega
    rw [e2, findFromFuel_skip c1 h1]
    have e3 : 114 + c2.length + c3.length = (113 + c2.length + c3.length) + 1 := by omega
    rw [e3, findFromFuel_marker23]
    have e4 : 113 + c2.length + c3.length = c2.length + (113 + c3.length) := by omega
    rw [e4, findFromFuel_skip c2 h2]
    have e5 : 113 + c3.length = (112 + c3.length) + 1 := by omega
    rw [e5, findFromFuel_marker33]
    have e6 : 112 + c3.length = c3.length + 112 := by omega
    rw [e6, findFromFuel_skip_nil c3 h3]
    simp only [List.cons.injEq, PageMarker.mk.injEq, and_true, true_and, List.nil_eq]
    omega
  unfold chunk_by_page
  rw [hm]
  simp only [buildChunks]
  rw [listSlice_eq_mid _ (pageMarker '1' '3') c1
    (pageMarker '2' '3' ++ (c2 ++ (pageMarker '3' '3' ++ c3))) _ _ rfl lm1.symm (by omega)]
  rw [listSlice_eq_mid _ (pageMarker '1' '3' ++ (c1 ++ pageMarker '2' '3')) c2
    (pageMarker '3' '3' ++ c3) _ _ (by simp [List.append_assoc])
    (by simp [List.length_append, lm1, lm2]; omega)
    (by simp [List.length_append, lm1, lm2]; omega)]
  rw [listSlice_eq_last _ (pageMarker '1' '3' ++ (c1 ++ (pageMarker '2' '3' ++ (c2 ++ pageMarker '3' '3')))) c3
    _ _ (by simp [List.append_assoc])
    (by simp [List.length_append, lm1, lm2, lm3]; omega) rfl]
  rw [if_neg n1, if_neg n2, if_neg n3]

theorem claim_C2_witness :
    chunk_by_page (pageMarker '1' '3' ++ (" alpha content ".data ++
        (pageMarker '2' '3' ++ (" beta content ".data ++
          (pageMarker '3' '3' ++ " gamma content ".data)))))
      = [⟨1, pyStrip " alpha content ".data, 3⟩,
         ⟨2, pyStrip " beta content ".data, 3⟩,
         ⟨3, pyStrip " gamma content ".data, 3⟩] :=
  chunk_by_page_html_markers " alpha content ".data " beta content ".data
    " gamma content ".data (by decide) (by decide) (by decide)
    (by decide) (by decide) (by decide)

/-- C3: `limit_pdf_to_max_pages` with page count within the limit returns
the original path unchanged with `was_truncated = false` and writes no
artifact; with page count above the limit it returns a distinct path,
`was_truncated = true`, the original page count, and writes an artifact
holding exactly the first `max_pages` pages. -/
theorem claim_C3_page_limiter (f : PdfFile) (max_pages : ℕ) :
    (get_pdf_page_count f ≤ max_pages →
      limit_pdf_to_max_pages f max_pages = ((f.path, get_pdf_page_count f, false), none))
    ∧ (max_pages < get_pdf_page_count f →
      (limit_pdf_to_max_pages f max_pages).1.1 ≠ f.path
      ∧ (limit_pdf_to_max_pages f max_pages).1.2.1 = get_pdf_page_count f
      ∧ (limit_pdf_to_max_pages f max_pages).1.2.2 = true
      ∧ ∃ g : PdfFile, (limit_pdf_to_max_pages f max_pages).2 = some g
          ∧ g.pages = f.pages.take max_pages
          ∧ g.pages.length = max_pages
          ∧ g.path = (limit_pdf_to_max_pages f max_pages).1.1) := by
  constructor
  · intro h
    unfold limit_pdf_to_max_pages
    rw [if_pos h]
  · intro h
    have hmin : min max_pages (get_pdf_page_count f) = max_pages := by
      simp only [get_pdf_page_count] at h ⊢
      omega
    have hres : limit_pdf_to_max_pages f max_pages =
        ((⟨f.path.parent, f.path.stem ++ "_limited", f.path.suffix⟩,
          get_pdf_page_count f, true),
         some ⟨⟨f.path.parent, f.path.stem ++ "_limited", f.path.suffix⟩,
           f.pages.take (min max_pages (get_pdf_page_count f))⟩) := by
      unfold limit_pdf_to_max_pages
      rw [if_neg (by omega)]
    refine ⟨?_, by rw [hres], by rw [hres], ?_⟩
    · rw [hres]
      intro hp
      have hst := congrArg PyPath.stem hp
      simp only at hst
      have := congrArg String.length hst
      rw [String.length_append] at this
      have h8 : "_limited".length = 8 := rfl
      omega
    · refine ⟨⟨⟨f.path.parent, f.path.stem ++ "_limited", f.path.suffix⟩,
        f.pages.take (min max_pages (get_pdf_page_count f))⟩,
        by rw [hres], by rw [hmin], ?_, by rw [hres]⟩
      simp only [List.length_take, get_pdf_page_count] at h ⊢
      omega

theorem claim_C3_witness :
    limit_pdf_to_max_pages ⟨⟨"uploads", "doc", ".pdf"⟩, [10, 20, 30]⟩ 5
        = ((⟨"uploads", "doc", ".pdf"⟩, 3, false), none)
    ∧ ((limit_pdf_to_max_pages ⟨⟨"uploads", "doc", ".pdf"⟩, [10, 20, 30]⟩ 2).1.1
          ≠ (⟨"uploads", "doc", ".pdf"⟩ : PyPath)
        ∧ (limit_pdf_to_max_pages ⟨⟨"uploads", "doc", ".pdf"⟩, [10, 20, 30]⟩ 2).1.2.1 = 3
        ∧ (limit_pdf_to_max_pages ⟨⟨"uploads", "doc", ".pdf"⟩, [10, 20, 30]⟩ 2).1.2.2 = true
        ∧ ∃ g : PdfFile,
            (limit_pdf_to_max_pages ⟨⟨"uploads", "doc", ".pdf"⟩, [10, 20, 30]⟩ 2).2 = some g
            ∧ g.pages = [10, 20, 30].take 2 ∧ g.pages.length = 2
            ∧ g.path = (limit_pdf_to_max_pages ⟨⟨"uploads", "doc", ".pdf"⟩, [10, 20, 30]⟩ 2).1.1) :=
  ⟨(claim_C3_page_limiter ⟨⟨"uploads", "doc", ".pdf"⟩, [10, 20, 30]⟩ 5).1 (by decide),
   (claim_C3_page_limiter ⟨⟨"uploads", "doc", ".pdf"⟩, [10, 20, 30]⟩ 2).2 (by decide)⟩

/-- C4 (counterexample): for a file that can never parse (it does not
exist), `parse_pdf_with_retry` does NOT fail immediately: it performs
backoff sleeps of 2 and 4 seconds (i.e. it retries the validation failure),
before finally re-raising the validation error.  This refutes the claim
that validation happens outside the retry loop with no retry attempt and no
backoff sleep. -/
theorem claim_C4_counterexample :
    (parse_pdf_with_retry ⟨"/missing/file.pdf", false, true, ".pdf".data⟩
        (fun _ => .ok "md") 3).2 = [2, 4]
    ∧ (parse_pdf_with_retry ⟨"/missing/file.pdf", false, true, ".pdf".data⟩
        (fun _ => .ok "md") 3).1
        = .error "PDF file not found: /missing/file.pdf" := by
  constructor <;> rfl

/-- C4 (amended): validation happens inside `parse_pdf`, which the retry
loop of `parse_pdf_with_retry` calls on every attempt; a validation failure
is therefore retried like any other failure: the wrapper performs all
`max_retries` attempts, sleeps `2 * i` seconds after each non-final failed
attempt `i`, and finally re-raises the validation error.  The external
parser itself is never invoked on such inputs — the result is independent
of the oracle, as validation precedes the external call within each
attempt. -/
theorem claim_C4_validation_retried (f : PdfFileInfo) (msg : String)
    (oracle : ℕ → Except String String) (max_retries : ℕ)
    (hval : parsePdfValidation f = some msg) (hm : 1 ≤ max_retries) :
    parse_pdf_with_retry f oracle max_retries
      = (.error msg, (List.range' 1 (max_retries - 1)).map (fun i => 2 * i)) := by
  unfold parse_pdf_with_retry
  rw [retryRun_allFail (fun attempt => parse_pdf f (oracle attempt))
      (fun attempt => 2 * attempt) max_retries (fun _ => msg)
      (fun i => by simp [parse_pdf, hval]) max_retries 1 "" le_rfl hm (by omega)]

theorem claim_C4_witness :
    parse_pdf_with_retry ⟨"/missing/file.pdf", false, true, ".pdf".data⟩
        (fun _ => .ok "md") 3
      = (.error "PDF file not found: /missing/file.pdf", [2, 4]) := by
  rw [claim_C4_validation_retried ⟨"/missing/file.pdf", false, true, ".pdf".data⟩
      "PDF file not found: /missing/file.pdf" (fun _ => .ok "md") 3 rfl (by norm_num)]
  rfl

/-- C5: a document whose external parser call fails on every retry attempt
ends FAILED with the last attempt's error message; `total_pages` is never
written (the task's FAILED update leaves it unset), the later stages are
never run (no summarizer invocation, no bulk-index submission) and no pages
are indexed. -/
theorem claim_C5_parse_failure_fatal (f : PdfFileInfo) (docid : String)
    (parseOracle : ℕ → Except String String)
    (σ : ℕ → ℕ → Except String String)
    (bulk : List IndexedDoc → ℕ × List String) (es : ℕ → String)
    (hval : parsePdfValidation f = none)
    (hOracle : ∀ i, parseOracle i = .error (es i)) :
    process_document f docid parseOracle σ bulk true
      = ⟨⟨docid, .failed, 0, 0, 0, some (es 3)⟩, some (es 3), [], 0⟩
    ∧ taskFinalRow (process_document f docid parseOracle σ bulk true)
      = ⟨.failed, none, some (es 3)⟩ := by
  have hcall : ∀ i, parse_pdf f (parseOracle i) = .error (es i) := by
    intro i
    simp [parse_pdf, hval, hOracle i]
  have hp : (parse_pdf_with_retry f parseOracle 3).1 = .error (es 3) := by
    unfold parse_pdf_with_retry
    rw [retryRun_allFail _ _ 3 es hcall 3 1 "" le_rfl (by norm_num) (by norm_num)]
  have hout : process_document f docid parseOracle σ bulk true
      = ⟨⟨docid, .failed, 0, 0, 0, some (es 3)⟩, some (es 3), [], 0⟩ := by
    unfold process_document
    rw [hp]
  exact ⟨hout, by rw [hout]; rfl⟩

theorem claim_C5_witness :
    process_document ⟨"a.pdf", true, true, ".pdf".data⟩ "doc-1"
        (fun _ => .error "LandingAI error 500") (fun _ _ => .ok "")
        (fun docs => (docs.length, [])) true
      = ⟨⟨"doc-1", .failed, 0, 0, 0, some "LandingAI error 500"⟩,
         some "LandingAI error 500", [], 0⟩
    ∧ taskFinalRow (process_document ⟨"a.pdf", true, true, ".pdf".data⟩ "doc-1"
        (fun _ => .error "LandingAI error 500") (fun _ _ => .ok "")
        (fun docs => (docs.length, [])) true)
      = ⟨.failed, none, some "LandingAI error 500"⟩ :=
  claim_C5_parse_failure_fatal ⟨"a.pdf", true, true, ".pdf".data⟩ "doc-1"
    (fun _ => .error "LandingAI error 500") (fun _ _ => .ok "")
    (fun docs => (docs.length, [])) (fun _ => "LandingAI error 500")
    rfl (fun _ => rfl)

/-- C6: with five page chunks and summarization failing (after its retries)
for exactly one of them while everything else succeeds, `process_document`
completes READY with `summaries_generated = 4`; the failing page is still
indexed, with an absent summary, and the other four pages keep their
summaries. -/
theorem claim_C6_partial_summary (f : PdfFileInfo) (docid md : String)
    (parseOracle : ℕ → Except String String)
    (σ : ℕ → ℕ → Except String String)
    (bulk : List IndexedDoc → ℕ × List String)
    (c1 c2 c3 c4 c5 : PageChunk) (j : Fin 5) (errMsg : String) (s : Fin 5 → String)
    (hval : parsePdfValidation f = none)
    (hparse : parseOracle 1 = .ok md) (hmd : md ≠ "")
    (hchunks : chunk_by_page md.data = [c1, c2, c3, c4, c5])
    (hres : ∀ i : Fin 5,
      (summarize_text_with_retry ([c1, c2, c3, c4, c5].get i).content (σ i.val) 3).1
        = if i = j then .error errMsg else .ok (s i))
    (hne : ∀ i : Fin 5, i ≠ j → s i ≠ "")
    (hbulk : ∀ docs, bulk docs = (docs.length, [])) :
    process_document f docid parseOracle σ bulk true
      = ⟨⟨docid, .ready, 5, 5, 4, none⟩, none,
         [⟨docid, f.name, c1.page, c1.content, if (⟨0, by omega⟩ : Fin 5) = j then none else some (s ⟨0, by omega⟩)⟩,
          ⟨docid, f.name, c2.page, c2.content, if (⟨1, by omega⟩ : Fin 5) = j then none else some (s ⟨1, by omega⟩)⟩,
          ⟨docid, f.name, c3.page, c3.content, if (⟨2, by omega⟩ : Fin 5) = j then none else some (s ⟨2, by omega⟩)⟩,
          ⟨docid, f.name, c4.page, c4.content, if (⟨3, by omega⟩ : Fin 5) = j then none else some (s ⟨3, by omega⟩)⟩,
          ⟨docid, f.name, c5.page, c5.content, if (⟨4, by omega⟩ : Fin 5) = j then none else some (s ⟨4, by omega⟩)⟩],
         5⟩ := by
  have hcall1 : parse_pdf f (parseOracle 1) = .ok md := by
    rw [hparse]
    simp [parse_pdf, hval, hmd]
  have hp : parse_pdf_with_retry f parseOracle 3 = (.ok md, []) := by
    unfold parse_pdf_with_retry
    exact retryRun_firstOk _ _ _ md hcall1 3 "" (by norm_num)
  have hp1 : (parse_pdf_with_retry f parseOracle 3).1 = .ok md := by rw [hp]
  have H0 := hres ⟨0, by omega⟩
  have H1 := hres ⟨1, by omega⟩
  have H2 := hres ⟨2, by omega⟩
  have H3 := hres ⟨3, by omega⟩
  have H4 := hres ⟨4, by omega⟩
  simp only [List.get] at H0 H1 H2 H3 H4
  unfold process_document
  rw [hp1]
  dsimp only
  rw [hchunks]
  simp only [summarizeChunks, if_true]
  rw [H0, H1, H2, H3, H4]
  fin_cases j
  · simp only [show ((⟨0, by omega⟩ : Fin 5) = (⟨0, by omega⟩ : Fin 5)) = True by simp,
      show ((⟨1, by omega⟩ : Fin 5) = (⟨0, by omega⟩ : Fin 5)) = False by simp,
      show ((⟨2, by omega⟩ : Fin 5) = (⟨0, by omega⟩ : Fin 5)) = False by simp,
      show ((⟨3, by omega⟩ : Fin 5) = (⟨0, by omega⟩ : Fin 5)) = False by simp,
      show ((⟨4, by omega⟩ : Fin 5) = (⟨0, by omega⟩ : Fin 5)) = False by simp,
      if_true, if_false]
    simp only [buildDocs, if_pos rfl,
      if_neg (hne ⟨1, by omega⟩ (by decide)), if_neg (hne ⟨2, by omega⟩ (by decide)),
      if_neg (hne ⟨3, by omega⟩ (by decide)), if_neg (hne ⟨4, by omega⟩ (by decide))]
    rw [hbulk]
    rfl
  · simp only [show ((⟨0, by omega⟩ : Fin 5) = (⟨1, by omega⟩ : Fin 5)) = False by simp,
      show ((⟨1, by omega⟩ : Fin 5) = (⟨1, by omega⟩ : Fin 5)) = True by simp,
      show ((⟨2, by omega⟩ : Fin 5) = (⟨1, by omega⟩ : Fin 5)) = False by simp,
      show ((⟨3, by omega⟩ : Fin 5) = (⟨1, by omega⟩ : Fin 5)) = False by simp,
      show ((⟨4, by omega⟩ : Fin 5) = (⟨1, by omega⟩ : Fin 5)) = False by simp,
      if_true, if_false]
    simp only [buildDocs, if_pos rfl,
      if_neg (hne ⟨0, by omega⟩ (by decide)), if_neg (hne ⟨2, by omega⟩ (by decide)),
      if_neg (hne ⟨3, by omega⟩ (by decide)), if_neg (hne ⟨4, by omega⟩ (by decide))]
    rw [hbulk]
    rfl
  · simp only [show ((⟨0, by omega⟩ : Fin 5) = (⟨2, by omega⟩ : Fin 5)) = False by simp,
      show ((⟨1, by omega⟩ : Fin 5) = (⟨2, by omega⟩ : Fin 5)) = False by simp,
      show ((⟨2, by omega⟩ : Fin 5) = (⟨2, by omega⟩ : Fin 5)) = True by simp,
      show ((⟨3, by omega⟩ : Fin 5) = (⟨2, by omega⟩ : Fin 5)) = False by simp,
      show ((⟨4, by omega⟩ : Fin 5) = (⟨2, by omega⟩ : Fin 5)) = False by simp,
      if_true, if_false]
    simp only [buildDocs, if_pos rfl,
      if_neg (hne ⟨0, by omega⟩ (by decide)), if_neg (hne ⟨1, by omega⟩ (by decide)),
      if_neg (hne ⟨3, by omega⟩ (by decide)), if_neg (hne ⟨4, by omega⟩ (by decide))]
    rw [hbulk]
    rfl
  · simp only [show ((⟨0, by omega⟩ : Fin 5) = (⟨3, by omega⟩ : Fin 5)) = False by simp,
      show ((⟨1, by omega⟩ : Fin 5) = (⟨3, by omega⟩ : Fin 5)) = False by simp,
      show ((⟨2, by omega⟩ : Fin 5) = (⟨3, by omega⟩ : Fin 5)) = False by simp,
      show ((⟨3, by omega⟩ : Fin 5) = (⟨3, by omega⟩ : Fin 5)) = True by simp,
      show ((⟨4, by omega⟩ : Fin 5) = (⟨3, by omega⟩ : Fin 5)) = False by simp,
      if_true, if_false]
    simp only [buildDocs, if_pos rfl,
      if_neg (hne ⟨0, by omega⟩ (by decide)), if_neg (hne ⟨1, by omega⟩ (by decide)),
      if_neg (hne ⟨2, by omega⟩ (by decide)), if_neg (hne ⟨4, by omega⟩ (by decide))]
    rw [hbulk]
    rfl
  · simp only [show ((⟨0, by omega⟩ : Fin 5) = (⟨4, by omega⟩ : Fin 5)) = False by simp,
      show ((⟨1, by omega⟩ : Fin 5) = (⟨4, by omega⟩ : Fin 5)) = False by simp,
      show ((⟨2, by omega⟩ : Fin 5) = (⟨4, by omega⟩ : Fin 5)) = False by simp,
      show ((⟨3, by omega⟩ : Fin 5) = (⟨4, by omega⟩ : Fin 5)) = False by simp,
      show ((⟨4, by omega⟩ : Fin 5) = (⟨4, by omega⟩ : Fin 5)) = True by simp,
      if_true, if_false]
    simp only [buildDocs, if_pos rfl,
      if_neg (hne ⟨0, by omega⟩ (by decide)), if_neg (hne ⟨1, by omega⟩ (by decide)),
      if_neg (hne ⟨2, by omega⟩ (by decide)), if_neg (hne ⟨3, by omega⟩ (by decide))]
    rw [hbulk]
    rfl

set_option maxRecDepth 16384 in
theorem claim_C6_witness :
    process_document ⟨"m.pdf", true, true, ".pdf".data⟩ "doc-6"
        (fun _ => .ok c6md)
        (fun idx _ => if idx = 1 then .error "API error" else .ok "Fine summary")
        (fun docs => (docs.length, [])) true
      = ⟨⟨"doc-6", .ready, 5, 5, 4, none⟩, none,
         [⟨"doc-6", "m.pdf", 1, List.replicate 55 'a', some "Fine summary"⟩,
          ⟨"doc-6", "m.pdf", 2, List.replicate 55 'b', none⟩,
          ⟨"doc-6", "m.pdf", 3, List.replicate 55 'c', some "Fine summary"⟩,
          ⟨"doc-6", "m.pdf", 4, List.replicate 55 'd', some "Fine summary"⟩,
          ⟨"doc-6", "m.pdf", 5, List.replicate 55 'e', some "Fine summary"⟩],
         5⟩ := by
  rw [claim_C6_partial_summary ⟨"m.pdf", true, true, ".pdf".data⟩ "doc-6" c6md
      (fun _ => .ok c6md)
      (fun idx _ => if idx = 1 then .error "API error" else .ok "Fine summary")
      (fun docs => (docs.length, []))
      ⟨1, List.replicate 55 'a', 5⟩ ⟨2, List.replicate 55 'b', 5⟩
      ⟨3, List.replicate 55 'c', 5⟩ ⟨4, List.replicate 55 'd', 5⟩
      ⟨5, List.replicate 55 'e', 5⟩ ⟨1, by omega⟩ "API error"
      (fun _ => "Fine summary") rfl rfl (by decide) (by decide)
      (by intro i; fin_cases i <;> rfl) (by intro i hi; simp)
      (fun _ => rfl)]
  rfl

/-- C7: a successful feedback submission synchronously removes the
boost-cache entry for that exact (document, page) key, so the next boost
lookup for that key recomputes from the (updated) feedback store — it can
never return a stale pre-feedback cached value, whatever the cache held. -/
theorem claim_C7_submit_invalidates (st : SearchServiceState) (now : ℚ)
    (query d : String) (p : ℕ) (positive : Bool) (fid : String)
    (sess : Option String) :
    ((submit_feedback st query d p positive fid sess).feedback_cache.cache.lookup
        (cacheKey d p) = none)
    ∧ (get_feedback_boost (submit_feedback st query d p positive fid sess) now d p).1
        = clampedBoost
            (feedbackStats (submit_feedback st query d p positive fid sess).store d p).1
            (feedbackStats (submit_feedback st query d p positive fid sess).store d p).2 := by
  have hlook : (submit_feedback st query d p positive fid sess).feedback_cache.cache.lookup
      (cacheKey d p) = none := by
    unfold submit_feedback invalidate_feedback_cache FeedbackCache.invalidate
    exact lookup_eraseKey_self _ _
  refine ⟨hlook, ?_⟩
  unfold get_feedback_boost FeedbackCache.get
  dsimp only
  rw [hlook]

/-- C8: `_parse_response` multiplies every hit's base relevance score by the
feedback boost for that hit's (document, page) and returns a permutation of
those boosted hits sorted by boosted score in descending order (stated for
any service state whose cache is consistent with the feedback store, e.g. a
fresh cache). -/
theorem claim_C8_boosted_rerank (st : SearchServiceState) (now : ℚ)
    (hits : List EsHit) (h : cacheConsistent st now) :
    List.Perm (parse_response st now hits).1 (hits.map (boostedResult st.store))
    ∧ List.Pairwise (fun a b : SearchResultR => b.score ≤ a.score)
        (parse_response st now hits).1 := by
  have hmap := applyBoosts_of_consistent now hits st h
  rcases ha : applyBoosts st now hits with ⟨results, st2⟩
  rw [ha] at hmap
  simp only at hmap
  have hpr : (parse_response st now hits).1 = results.mergeSort scoreDescLe := by
    unfold parse_response
    rw [ha]
  rw [hpr]
  constructor
  · rw [← hmap]
    exact List.mergeSort_perm results scoreDescLe
  · have hs := @List.sorted_mergeSort SearchResultR scoreDescLe
      (fun a b c hab hbc => by
        simp only [scoreDescLe, decide_eq_true_eq] at *
        exact le_trans hbc hab)
      (fun a b => by
        simp only [scoreDescLe, Bool.or_eq_true, decide_eq_true_eq]
        exact le_total b.score a.score)
      results
    exact hs.imp (fun hab => by simpa [scoreDescLe, decide_eq_true_eq] using hab)

theorem claim_C8_witness :
    List.Perm
      (parse_response ⟨⟨[], 300⟩, []⟩ 0
        [⟨"doc", "f.pdf", 1, 2, none⟩, ⟨"doc", "f.pdf", 2, 5, none⟩]).1
      ([⟨"doc", "f.pdf", 1, 2, none⟩, ⟨"doc", "f.pdf", 2, 5, none⟩].map
        (boostedResult []))
    ∧ List.Pairwise (fun a b : SearchResultR => b.score ≤ a.score)
        (parse_response ⟨⟨[], 300⟩, []⟩ 0
          [⟨"doc", "f.pdf", 1, 2, none⟩, ⟨"doc", "f.pdf", 2, 5, none⟩]).1 :=
  claim_C8_boosted_rerank ⟨⟨[], 300⟩, []⟩ 0 _
    (fun _ _ _ _ hl _ => Option.noConfusion hl)

/-- C9 (counterexample): the summarization wrapper's backoff is not linear:
with every attempt failing and a budget of 4 attempts, the sleeps performed
are [2, 4, 8] (seconds), which matches `2 ^ i` and fits no `k * i` for any
fixed rational `k`. -/
theorem claim_C9_counterexample :
    ¬ ∃ k : ℚ,
      ((summarize_text_with_retry
          "aaaaaaaaaaaaaaaaaaaaaaaaaaaaaaaaaaaaaaaaaaaaaaaaaaaaaaaaaaaa".data
          (fun _ => .error "rate limited") 4).2.map (fun w => (w : ℚ)))
        = [k * 1, k * 2, k * 3] := by
  rintro ⟨k, hk⟩
  have hws : (summarize_text_with_retry
      "aaaaaaaaaaaaaaaaaaaaaaaaaaaaaaaaaaaaaaaaaaaaaaaaaaaaaaaaaaaa".data
      (fun _ => .error "rate limited") 4).2 = [2, 4, 8] := by rfl
  rw [hws] at hk
  simp [List.map] at hk
  obtain ⟨h1, h2, h3⟩ := hk
  linarith

/-- C9 (amended): for runs in which every attempt fails, the parsing
wrapper's backoff is linear in the attempt index (`wait = 2 * i` seconds
after failed attempt `i`), but the summarization wrapper's backoff is
exponential (`wait = 2 ^ i` seconds); both perform their sleeps for
attempts `1 … max_retries - 1` and re-raise the last error. -/
theorem claim_C9_backoff (f : PdfFileInfo) (content : List Char)
    (pOracle sOracle : ℕ → Except String String) (max_retries : ℕ)
    (pes ses : ℕ → String)
    (hp : ∀ i, parse_pdf f (pOracle i) = .error (pes i))
    (hs : ∀ i, summarize_text content (sOracle i) = .error (ses i))
    (hm : 1 ≤ max_retries) :
    parse_pdf_with_retry f pOracle max_retries
        = (.error (pes max_retries),
           (List.range' 1 (max_retries - 1)).map (fun i => 2 * i))
    ∧ summarize_text_with_retry content sOracle max_retries
        = (.error (ses max_retries),
           (List.range' 1 (max_retries - 1)).map (fun i => 2 ^ i)) := by
  constructor
  · unfold parse_pdf_with_retry
    rw [retryRun_allFail _ _ max_retries pes hp max_retries 1 "" le_rfl hm (by omega)]
  · unfold summarize_text_with_retry
    rw [retryRun_allFail _ _ max_retries ses hs max_retries 1 "" le_rfl hm (by omega)]

theorem claim_C9_witness :
    parse_pdf_with_retry ⟨"a.pdf", true, true, ".pdf".data⟩
        (fun _ => .error "parser unavailable") 4
      = (.error "parser unavailable", [2, 4, 6])
    ∧ summarize_text_with_retry
        "aaaaaaaaaaaaaaaaaaaaaaaaaaaaaaaaaaaaaaaaaaaaaaaaaaaaaaaaaaaa".data
        (fun _ => .error "rate limited") 4
      = (.error "rate limited", [2, 4, 8]) := by
  obtain ⟨h1, h2⟩ := claim_C9_backoff ⟨"a.pdf", true, true, ".pdf".data⟩
    "aaaaaaaaaaaaaaaaaaaaaaaaaaaaaaaaaaaaaaaaaaaaaaaaaaaaaaaaaaaa".data
    (fun _ => .error "parser unavailable") (fun _ => .error "rate limited") 4
    (fun _ => "parser unavailable") (fun _ => "rate limited")
    (fun _ => rfl) (fun _ => rfl) (by norm_num)
  constructor
  · rw [h1]
    rfl
  · rw [h2]
    rfl

/-- C10: FeedbackCache round-trip and isolation: a `get` after `set` returns
the stored boost strictly before expiry and `none` at or after expiry (the
expired entry being removed); `get` after `invalidate` returns `none`;
`set`/`invalidate` on one (document, page) never changes the value observed
for any other pair; and the `"document_id:page"` key encoding is injective
for integer pages. -/
theorem claim_C10_cache_roundtrip :
    (∀ (fc : FeedbackCache) (now now' : ℚ) (d : String) (p : ℕ) (b : ℚ),
        now' < now + fc.ttl_seconds →
        ((fc.set now d p b).get now' d p).1 = some b)
    ∧ (∀ (fc : FeedbackCache) (now now' : ℚ) (d : String) (p : ℕ) (b : ℚ),
        now + fc.ttl_seconds ≤ now' →
        ((fc.set now d p b).get now' d p).1 = none
        ∧ ((fc.set now d p b).get now' d p).2.cache.lookup (cacheKey d p) = none)
    ∧ (∀ (fc : FeedbackCache) (now : ℚ) (d : String) (p : ℕ),
        ((fc.invalidate d p).get now d p).1 = none)
    ∧ (∀ (fc : FeedbackCache) (now now' : ℚ) (d d' : String) (p p' : ℕ) (b : ℚ),
        (d, p) ≠ (d', p') →
        ((fc.set now d p b).get now' d' p').1 = (fc.get now' d' p').1
        ∧ ((fc.invalidate d p).get now' d' p').1 = (fc.get now' d' p').1)
    ∧ (∀ (d d' : String) (p p' : ℕ), cacheKey d p = cacheKey d' p' → d = d' ∧ p = p') := by
  refine ⟨?_, ?_, ?_, ?_, cacheKey_injective⟩
  · intro fc now now' d p b h
    unfold FeedbackCache.set FeedbackCache.get
    simp only [List.lookup]
    rw [show (cacheKey d p == cacheKey d p) = true by simp]
    dsimp only
    simp only [if_pos h]
  · intro fc now now' d p b h
    unfold FeedbackCache.set FeedbackCache.get
    simp only [List.lookup]
    rw [show (cacheKey d p == cacheKey d p) = true by simp]
    dsimp only
    rw [if_neg (by exact not_lt.mpr h)]
    refine ⟨rfl, ?_⟩
    simp only
    rw [show eraseKey ((cacheKey d p, b, now + fc.ttl_seconds) :: eraseKey fc.cache (cacheKey d p)) (cacheKey d p)
        = eraseKey (eraseKey fc.cache (cacheKey d p)) (cacheKey d p) from by simp [eraseKey]]
    exact lookup_eraseKey_self _ _
  · intro fc now d p
    unfold FeedbackCache.invalidate FeedbackCache.get
    simp only [lookup_eraseKey_self]
  · intro fc now now' d d' p p' b hne
    have hk : cacheKey d' p' ≠ cacheKey d p := by
      intro h
      obtain ⟨h1, h2⟩ := cacheKey_injective d' d p' p h
      exact hne (by rw [h1, h2])
    constructor
    · unfold FeedbackCache.set FeedbackCache.get
      simp only [List.lookup]
      rw [show (cacheKey d' p' == cacheKey d p) = false by simpa using hk,
        lookup_eraseKey_ne _ _ _ hk]
      rcases fc.cache.lookup (cacheKey d' p') with _ | ⟨b0, e0⟩
      · rfl
      · by_cases ht : now' < e0 <;> simp [ht]
    · unfold FeedbackCache.invalidate FeedbackCache.get
      dsimp only
      rw [lookup_eraseKey_ne _ _ _ hk]
      rcases fc.cache.lookup (cacheKey d' p') with _ | ⟨b0, e0⟩
      · rfl
      · by_cases ht : now' < e0 <;> simp [ht]

theorem claim_C10_witness :
    ((FeedbackCache.set ⟨[], 300⟩ 0 "doc" 2 (3/2)).get 10 "doc" 2).1 = some (3/2)
    ∧ ((FeedbackCache.set ⟨[], 300⟩ 0 "doc" 2 (3/2)).get 300 "doc" 2).1 = none
    ∧ ((FeedbackCache.invalidate ⟨[(cacheKey "doc" 2, 3/2, 300)], 300⟩ "doc" 2).get 10 "doc" 2).1 = none
    ∧ ((FeedbackCache.set ⟨[], 300⟩ 0 "doc" 2 (3/2)).get 10 "doc" 3).1
        = (FeedbackCache.get ⟨[], 300⟩ 10 "doc" 3).1 :=
  ⟨claim_C10_cache_roundtrip.1 ⟨[], 300⟩ 0 10 "doc" 2 (3/2) (by norm_num),
   (claim_C10_cache_roundtrip.2.1 ⟨[], 300⟩ 0 300 "doc" 2 (3/2) (by norm_num)).1,
   claim_C10_cache_roundtrip.2.2.1 ⟨[(cacheKey "doc" 2, 3/2, 300)], 300⟩ 10 "doc" 2,
   (claim_C10_cache_roundtrip.2.2.2.1 ⟨[], 300⟩ 0 10 "doc" "doc" 2 3 (3/2) (by simp)).1⟩

end DocParser
